import Mathlib

/-!
Verification of the M3U8 download manager (`fuliji`): a shallow embedding of
`fuliji/database.py` (the download Ledger) and `fuliji/pipelines.py`
(admission/deduplication, fetch invocation, job bookkeeping), with theorems
settling the specification's claims about them.

Modelling conventions:
* `md5 : String → String` stands for `hashlib.md5(...).hexdigest()`; it is a
  parameter of every definition that hashes URLs (the hash itself is an
  external library call).
* the file system is a parameter as well: `fsx : String → Bool` models
  `os.path.exists`, and `fsz : String → Option Nat` models
  `os.path.exists` combined with `os.path.getsize` (`none` = file absent).
* timestamps (`CURRENT_TIMESTAMP`, `time.time()`) are a `now : Nat` parameter.
* every Ledger method in the source wraps its whole body in
  `try ... except: return <default>` with connection rollback; this boundary
  is modelled by a leading `fault : Bool` argument: `fault = true` means the
  storage layer raised somewhere in the body, in which case the method
  returns its default and (by rollback) leaves the store unchanged.
-/

/-- One row of the `downloads` table of `database.py`. -/
structure JobRecord where
  id : Nat
  url_hash : String
  url : String
  title : String
  site : String
  file_path : Option String
  temp_file_path : Option String
  status : String
  download_time : Option Nat
  file_size : Option Nat
  created_at : Nat
  updated_at : Nat
deriving Repr, DecidableEq

/-- The `downloads` table together with its `AUTOINCREMENT` counter. -/
structure Ledger where
  rows : List JobRecord
  nextId : Nat
deriving Repr, DecidableEq

/-- `DownloadDatabase.get_url_hash`: MD5 hex digest of the URL. -/
def get_url_hash (md5 : String → String) (url : String) : String := md5 url

/-- Python truthiness of the `file_path` argument of `update_download_status`
(`if file_path:`): `None` and the empty string are falsy. -/
def fpTruthy : Option String → Bool
  | none => false
  | some p => p != ""

/-- `DownloadDatabase.update_download_status`: updates `status` and
`updated_at` on every row matching the URL hash; writes `file_path` only when
the argument is truthy, `file_size` only when it is not `None`, and
`download_time` only when the new status is `'completed'`. Returns whether a
row matched (`cursor.rowcount > 0`). -/
def update_download_status (md5 : String → String) (now : Nat) (fault : Bool)
    (db : Ledger) (url status : String)
    (file_path : Option String) (file_size : Option Nat) : Bool × Ledger :=
  if fault then (false, db) else
  let h := get_url_hash md5 url
  let matched := db.rows.any (fun r => r.url_hash == h)
  let rows := db.rows.map (fun r =>
    if r.url_hash == h then
      { r with
        status := status
        updated_at := now
        file_path := if fpTruthy file_path then file_path else r.file_path
        file_size := match file_size with
          | some n => some n
          | none => r.file_size
        download_time := if status == "completed" then some now else r.download_time }
    else r)
  (matched, { db with rows := rows })

/-- `DownloadDatabase.is_download_completed`: looks up a `'completed'` row for
the URL; if its recorded file exists returns `(True, file_path)`; if the path
is null or the file vanished, demotes the record to `'missing_file'` (via
`update_download_status`, which has its own fault boundary `updFault`) and
returns `(False, None)`; with no `'completed'` row returns `(False, None)`. -/
def is_download_completed (md5 : String → String) (fsx : String → Bool) (now : Nat)
    (fault updFault : Bool) (db : Ledger) (url : String) :
    (Bool × Option String) × Ledger :=
  if fault then ((false, none), db) else
  let h := get_url_hash md5 url
  match db.rows.find? (fun r => r.url_hash == h && r.status == "completed") with
  | none => ((false, none), db)
  | some r =>
    match r.file_path with
    | some p =>
      if fsx p then ((true, some p), db)
      else ((false, none),
        (update_download_status md5 now updFault db url "missing_file" none none).2)
    | none => ((false, none),
        (update_download_status md5 now updFault db url "missing_file" none none).2)

/-- `DownloadDatabase.get_temp_file_path`: the `temp_file_path` column of the
row matching the URL hash, if any. -/
def get_temp_file_path (md5 : String → String) (fault : Bool)
    (db : Ledger) (url : String) : Option String :=
  if fault then none else
  match db.rows.find? (fun r => r.url_hash == get_url_hash md5 url) with
  | none => none
  | some r => r.temp_file_path

/-- `DownloadDatabase.add_download_record`: `INSERT OR REPLACE` of a fresh
`'downloading'` row keyed by the URL hash — any existing row with that hash is
deleted and replaced by a row whose `file_path`, `file_size` and
`download_time` are null and whose timestamps are `CURRENT_TIMESTAMP`.
Returns `cursor.lastrowid`. -/
def add_download_record (md5 : String → String) (now : Nat) (fault : Bool)
    (db : Ledger) (url title site temp_file_path : String) : Option Nat × Ledger :=
  if fault then (none, db) else
  let h := get_url_hash md5 url
  let newRec : JobRecord :=
    { id := db.nextId, url_hash := h, url := url, title := title, site := site
      file_path := none, temp_file_path := some temp_file_path
      status := "downloading", download_time := none, file_size := none
      created_at := now, updated_at := now }
  (some db.nextId,
    { rows := db.rows.filter (fun r => r.url_hash != h) ++ [newRec]
      nextId := db.nextId + 1 })

/-- One entry of the dictionary returned by `get_download_statistics`. -/
inductive StatEntry where
  | total (n : Nat)
  | status_stats (m : List (String × Nat))
  | valid_files (n : Nat)
  | total_size_mb (q : ℚ)
deriving Repr, DecidableEq

/-- `GROUP BY status` counts for `get_download_statistics`. -/
def statusCounts (rows : List JobRecord) : List (String × Nat) :=
  ((rows.map (fun r => r.status)).eraseDups).map
    (fun s => (s, (rows.filter (fun r => r.status == s)).length))

/-- `DownloadDatabase.get_download_statistics`: total row count, per-status
counts, count of `'completed'` rows with non-null `file_path`, and the total
`file_size` of completed rows converted to MB (`0` when the sum is zero). -/
def get_download_statistics (fault : Bool) (db : Ledger) : List StatEntry :=
  if fault then [] else
  let total := db.rows.length
  let valid := (db.rows.filter
    (fun r => r.status == "completed" && r.file_path.isSome)).length
  let totalSize : Nat := (db.rows.filter
    (fun r => r.status == "completed" && r.file_size.isSome)).foldl
      (fun a r => a + r.file_size.getD 0) 0
  [ .total total
  , .status_stats (statusCounts db.rows)
  , .valid_files valid
  , .total_size_mb (if totalSize ≠ 0 then (totalSize : ℚ) / 1048576 else 0) ]

/-- Stable insertion of a row into a list kept in descending `created_at`
order (models `ORDER BY created_at DESC`). -/
def insertByCreatedDesc (r : JobRecord) : List JobRecord → List JobRecord
  | [] => [r]
  | x :: xs =>
    if x.created_at ≤ r.created_at then r :: x :: xs
    else x :: insertByCreatedDesc r xs

/-- Sort rows in descending `created_at` order. -/
def sortByCreatedDesc : List JobRecord → List JobRecord
  | [] => []
  | x :: xs => insertByCreatedDesc x (sortByCreatedDesc xs)

/-- `DownloadDatabase.get_all_downloads`: all rows newest first; a truthy
`limit` (`if limit:`, so `None` and `0` impose no bound) adds
`LIMIT limit OFFSET offset`. -/
def get_all_downloads (fault : Bool) (db : Ledger)
    (limit : Option Nat) (offset : Nat) : List JobRecord :=
  if fault then [] else
  let sorted := sortByCreatedDesc db.rows
  match limit with
  | some n => if n ≠ 0 then (sorted.drop offset).take n else sorted
  | none => sorted

/-- `DownloadDatabase.get_downloads_by_status`: rows with the given status,
newest first. -/
def get_downloads_by_status (fault : Bool) (db : Ledger) (status : String) :
    List JobRecord :=
  if fault then [] else
  sortByCreatedDesc (db.rows.filter (fun r => r.status == status))

/-- `DownloadDatabase.cleanup_missing_files`: demotes to `'missing_file'`
every `'completed'` row whose non-null `file_path` no longer exists on disk;
returns how many rows were demoted. -/
def cleanup_missing_files (fsx : String → Bool) (now : Nat) (fault : Bool)
    (db : Ledger) : Nat × Ledger :=
  if fault then (0, db) else
  let missingIds := ((db.rows.filter (fun r =>
    r.status == "completed" && r.file_path.isSome
      && !(fsx (r.file_path.getD "")))).map (fun r => r.id))
  if missingIds.isEmpty then (0, db)
  else (missingIds.length,
    { db with rows := db.rows.map (fun r =>
        if missingIds.contains r.id then
          { r with status := "missing_file", updated_at := now }
        else r) })

/-- `DownloadDatabase.reset_all_records`: `DELETE FROM downloads`; returns the
number of deleted rows. The `AUTOINCREMENT` sequence is not reset. -/
def reset_all_records (fault : Bool) (db : Ledger) : Nat × Ledger :=
  if fault then (0, db) else (db.rows.length, { db with rows := [] })

/-!
The `M3U8Pipeline` of `pipelines.py`: URL-key extraction, admission and
deduplication, and the per-job download flow.
-/

/-- A character matched by the regex class `[a-zA-Z0-9]`. -/
def isAlnumAscii (c : Char) : Bool :=
  ('a' ≤ c && c ≤ 'z') || ('A' ≤ c && c ≤ 'Z') || ('0' ≤ c && c ≤ '9')

/-- Helper for `alnumRuns`: accumulates the current run (reversed). -/
def alnumRunsAux : List Char → List Char → List (List Char)
  | [], acc => if acc.isEmpty then [] else [acc.reverse]
  | c :: cs, acc =>
    if isAlnumAscii c then alnumRunsAux cs (c :: acc)
    else if acc.isEmpty then alnumRunsAux cs []
    else acc.reverse :: alnumRunsAux cs []

/-- Maximal runs of `[a-zA-Z0-9]` characters, in order of occurrence
(`re.findall(r'[a-zA-Z0-9]{N,}', url)` is these runs filtered by length). -/
def alnumRuns (s : List Char) : List (List Char) := alnumRunsAux s []

/-- Python's `max(matches, key=len)`: the first list of maximal length. -/
def firstLongest : List (List Char) → Option (List Char)
  | [] => none
  | x :: xs =>
    some (xs.foldl (fun best r => if best.length < r.length then r else best) x)

/-- Non-overlapping left-to-right matches of `re.findall(r'/([a-zA-Z0-9]{6,})/', url)`:
each match is a maximal alphanumeric run of length ≥ 6 delimited by slashes,
and the closing slash is consumed, so the scan resumes after it. The fuel is
the remaining string length. -/
def segMatchesAux : Nat → List Char → List (List Char)
  | 0, _ => []
  | _, [] => []
  | fuel + 1, c :: rest =>
    if c == '/' then
      let run := rest.takeWhile isAlnumAscii
      let rest' := rest.dropWhile isAlnumAscii
      if 6 ≤ run.length then
        match rest' with
        | '/' :: tail => run :: segMatchesAux fuel tail
        | _ => segMatchesAux fuel rest
      else segMatchesAux fuel rest
    else segMatchesAux fuel rest

/-- The pattern `.m3u8` as a character list. -/
def m3u8suffix : List Char := ['.', 'm', '3', 'u', '8']

/-- Offsets `k ≥ 1` inside a path segment at which the literal `.m3u8`
occurs; the greedy group `[^/]+` of `re.search(r'/([^/]+)\.m3u8', url)` is
the prefix before the largest such offset. -/
def stemOffsets (seg : List Char) : List Nat :=
  (List.range seg.length).filter
    (fun k => 1 ≤ k && (seg.drop k).take 5 == m3u8suffix)

/-- Leftmost match of `re.search(r'/([^/]+)\.m3u8', url)`: scan slashes left
to right; at the first slash whose following segment contains `.m3u8` at an
offset ≥ 1, return the (greedy, hence longest) group. -/
def searchM3u8Stem : Nat → List Char → Option (List Char)
  | 0, _ => none
  | _, [] => none
  | fuel + 1, c :: rest =>
    if c == '/' then
      let seg := rest.takeWhile (fun d => d != '/')
      match (stemOffsets seg).getLast? with
      | some k => some (seg.take k)
      | none => searchM3u8Stem fuel rest
    else searchM3u8Stem fuel rest

/-- `M3U8Pipeline._extract_url_key`: (1) the longest alphanumeric run of
length ≥ 8 when it has length ≥ 12; else (2) the last match of the
non-overlapping scan for slash-delimited alphanumeric segments of length ≥ 6;
else (3) the `.m3u8` filename stem when of length ≥ 6; else (4) the first 16
hex digits of the URL's MD5. -/
def extract_url_key (md5 : String → String) (url : String) : String :=
  let s := url.data
  let ms := (alnumRuns s).filter (fun r => 8 ≤ r.length)
  let m1 : Option (List Char) :=
    match firstLongest ms with
    | some t => if 12 ≤ t.length then some t else none
    | none => none
  match m1 with
  | some t => String.mk t
  | none =>
    match (segMatchesAux (s.length + 1) s).getLast? with
    | some seg => String.mk seg
    | none =>
      match searchM3u8Stem (s.length + 1) s with
      | some stem => if 6 ≤ stem.length then String.mk stem else (md5 url).take 16
      | none => (md5 url).take 16

/-- A character removed by Python's `str.strip()` (ASCII whitespace). -/
def isPySpace (c : Char) : Bool :=
  c == ' ' || c == '\t' || c == '\n' || c == '\r' || c == '\x0b' || c == '\x0c'

/-- Python's `url.strip()`: drop leading and trailing whitespace. -/
def strip (s : String) : String :=
  String.mk (((s.data.dropWhile isPySpace).reverse.dropWhile isPySpace).reverse)

/-- In-memory state of `M3U8Pipeline` relevant to admission, together with
the Ledger it consults. -/
structure PipelineState where
  downloading_urls : List String
  processed_urls : List String
  downloading_titles : List String
  processed_titles : List String
  excluded_titles : List String
  db : Ledger
deriving Repr, DecidableEq

/-- `M3U8Pipeline._is_title_excluded`: membership in the loaded exclusion
list. -/
def is_title_excluded (st : PipelineState) (title : String) : Bool :=
  st.excluded_titles.contains title

/-- Modelled from the spec: `_is_similar_url` is invoked by
`_deduplicate_urls` but its definition is missing from the sources at hand;
per the spec's fuzzy URL-key exclusion tier ("a normalized structural key is
extracted from the URL ... and compared against previously seen keys →
reject if a collision is found"), it reports whether the URL's structural key
collides with the key of a URL already processed this run. -/
def is_similar_url (md5 : String → String) (st : PipelineState) (url : String) : Bool :=
  st.processed_urls.any
    (fun u => extract_url_key md5 u == extract_url_key md5 url)

/-- Modelled from the spec: the Ledger method `is_downloaded` is invoked by
`_deduplicate_urls` but is missing from the sources at hand; per the spec's
completed-in-store tier ("Ledger reports `completed` with an existing file →
reject, return the known final path to the caller" and `lookupCompleted`,
"which additionally performs a disk-existence check and self-heals"), it is
the `is_download_completed` lookup, of which the admission check consumes the
boolean. -/
def is_downloaded (md5 : String → String) (fsx : String → Bool) (now : Nat)
    (db : Ledger) (url : String) : Bool × Ledger :=
  let r := is_download_completed md5 fsx now false false db url
  (r.1.1, r.2)

/-- The tier at which a submission is rejected. Tier names follow the order
of the source: title exclusion is checked for the whole item in
`process_item`, then `_deduplicate_urls` checks each URL against the
within-call exact and fuzzy-key sets, the seen-this-run set, similar URLs,
the Ledger, and the in-flight set. -/
inductive Reject where
  | titleExcluded
  | exactDup
  | fuzzyKeyDup
  | seenThisRun
  | similarUrl
  | ledgerCompleted
  | inFlight
deriving Repr, DecidableEq

/-- One URL's admission checks in `_deduplicate_urls`, in source order, given
the within-call sets `seen_urls` and `seen_url_keys`; `none` means the URL
passes every tier. -/
def dedup_check (md5 : String → String) (fsx : String → Bool) (now : Nat)
    (st : PipelineState) (seen_urls seen_url_keys : List String)
    (url : String) : Option Reject :=
  let normalized := (strip url)
  if seen_urls.contains normalized then some .exactDup
  else if seen_url_keys.contains (extract_url_key md5 normalized) then some .fuzzyKeyDup
  else if st.processed_urls.contains normalized then some .seenThisRun
  else if is_similar_url md5 st normalized then some .similarUrl
  else if (is_downloaded md5 fsx now st.db normalized).1 then some .ledgerCompleted
  else if st.downloading_urls.contains normalized then some .inFlight
  else none

/-- Accumulator of the `_deduplicate_urls` loop. -/
structure DedupState where
  unique_urls : List String
  seen_urls : List String
  seen_url_keys : List String
  st : PipelineState
deriving Repr, DecidableEq

/-- One iteration of the `_deduplicate_urls` loop: falsy URLs are skipped;
a URL rejected by the Ledger tier is added to `processed_urls` (and the
Ledger lookup may have self-healed a stale record); an admitted URL is
appended to `unique_urls` and to both within-call sets. -/
def dedup_step (md5 : String → String) (fsx : String → Bool) (now : Nat)
    (acc : DedupState) (url : String) : DedupState :=
  if url == "" then acc else
  let normalized := (strip url)
  if acc.seen_urls.contains normalized then acc
  else if acc.seen_url_keys.contains (extract_url_key md5 normalized) then acc
  else if acc.st.processed_urls.contains normalized then acc
  else if is_similar_url md5 acc.st normalized then acc
  else
    let r := is_downloaded md5 fsx now acc.st.db normalized
    let st' := { acc.st with db := r.2 }
    if r.1 then
      { acc with st :=
          { st' with processed_urls := st'.processed_urls ++ [normalized] } }
    else if st'.downloading_urls.contains normalized then { acc with st := st' }
    else
      { unique_urls := acc.unique_urls ++ [normalized]
        seen_urls := acc.seen_urls ++ [normalized]
        seen_url_keys := acc.seen_url_keys ++ [extract_url_key md5 normalized]
        st := st' }

/-- `M3U8Pipeline._deduplicate_urls`: the admitted URLs in order, and the
pipeline state (session sets and Ledger) as mutated by the checks. -/
def deduplicate_urls (md5 : String → String) (fsx : String → Bool) (now : Nat)
    (st : PipelineState) (urls : List String) : List String × PipelineState :=
  let final := urls.foldl (dedup_step md5 fsx now) ⟨[], [], [], st⟩
  (final.unique_urls, final.st)

/-- The admission part of `M3U8Pipeline.process_item` for one item: if the
title is in the exclusion list the whole item is dropped before any URL
check; otherwise the URL list goes through `_deduplicate_urls`, and only the
surviving URLs are handed to the download executor. -/
def process_item_admitted (md5 : String → String) (fsx : String → Bool) (now : Nat)
    (st : PipelineState) (title : String) (urls : List String) :
    List String × PipelineState :=
  if is_title_excluded st title then ([], st)
  else deduplicate_urls md5 fsx now st urls

/-- The tier, in source order, at which a single-URL submission is rejected
(`none` = admitted): `process_item` checks the title exclusion list first,
then the URL runs through the `_deduplicate_urls` tiers with empty
within-call sets. -/
def admission_reason (md5 : String → String) (fsx : String → Bool) (now : Nat)
    (st : PipelineState) (title : String) (url : String) : Option Reject :=
  if is_title_excluded st title then some .titleExcluded
  else dedup_check md5 fsx now st [] [] url

/-!
The per-job download flow: `download_m3u8_with_resume` (the ffmpeg
invocation) and `_download_video_async` (the worker body).
-/

/-- Outcome of the external `subprocess.run(ffmpeg ...)` call: normal exit
with a return code, expiry of the 3600 s wall-clock timeout, or some other
exception raised during the invocation. -/
inductive FetchOutcome where
  | exited (code : Nat)
  | timedOut
  | raised
deriving Repr, DecidableEq

/-- `M3U8Pipeline.download_m3u8_with_resume`: reports success exactly when
the process exits with code 0 and the output file exists with size > 0;
a non-zero exit, a missing or empty output file, a timeout
(`subprocess.TimeoutExpired`), or any other exception during the invocation
is reported as failure (the `except` clauses return `False`). `fsz p` is the
size of file `p` after the call, `none` if it does not exist. -/
def download_m3u8_with_resume (fsz : String → Option Nat)
    (outcome : FetchOutcome) (temp_file_path : String) : Bool :=
  match outcome with
  | .exited 0 =>
    match fsz temp_file_path with
    | some n => decide (0 < n)
    | none => false
  | .exited (_ + 1) => false
  | .timedOut => false
  | .raised => false

/-- What one run of `M3U8Pipeline._download_video_async` did: the job result
dictionary's `success` flag, the status written to the Ledger, whether the
temp file was moved to its final path (on failure it is explicitly left in
place), the resulting Ledger, and the resulting title exclusion list. -/
structure JobEffects where
  success : Bool
  recordedStatus : String
  movedTemp : Bool
  db : Ledger
  excluded_titles : List String
deriving Repr, DecidableEq

/-- `M3U8Pipeline._download_video_async`: on fetch success the temp file is
moved to the final path, the Ledger row is set to `'completed'` with the
final path and file size, and the title is appended to the exclusion list;
on fetch failure (which includes timeouts — `download_m3u8_with_resume`
catches them and returns `False`) the row is set to `'failed'`, the temp
file is left in place and the exclusion list is untouched; an exception
escaping into this body (`bodyRaised`, e.g. from the path computation or the
file move) sets the row to `'error'`. Path computation is abstracted: `temp`
and `final` are the resolved temp and final file paths. -/
def download_video_async (md5 : String → String) (fsz : String → Option Nat)
    (now : Nat) (outcome : FetchOutcome) (bodyRaised : Bool)
    (db : Ledger) (excluded : List String)
    (url title temp final : String) : JobEffects :=
  if bodyRaised then
    { success := false, recordedStatus := "error", movedTemp := false
      db := (update_download_status md5 now false db url "error" none none).2
      excluded_titles := excluded }
  else if download_m3u8_with_resume fsz outcome temp then
    let size := (fsz temp).getD 0
    { success := true, recordedStatus := "completed", movedTemp := true
      db := (update_download_status md5 now false db url "completed"
        (some final) (some size)).2
      excluded_titles := excluded ++ [title] }
  else
    { success := false, recordedStatus := "failed", movedTemp := false
      db := (update_download_status md5 now false db url "failed" none none).2
      excluded_titles := excluded }

/-!
A second key-extraction definition written from the spec's words, used only
to compare the spec's description of `_extract_url_key` with the source.
-/

/-- Overlapping scan collecting every alphanumeric path segment of length ≥ 6
that is enclosed in slashes (the closing slash is not consumed, so adjacent
qualifying segments are all collected). Helper for `spec_url_key`. -/
def specSegAux : Nat → List Char → List (List Char)
  | 0, _ => []
  | _, [] => []
  | fuel + 1, c :: rest =>
    if c == '/' then
      let run := rest.takeWhile isAlnumAscii
      let rest' := rest.dropWhile isAlnumAscii
      if 6 ≤ run.length &&
          (match rest' with | '/' :: _ => true | _ => false) then
        run :: specSegAux fuel rest
      else specSegAux fuel rest
    else specSegAux fuel rest

/-- Written from the spec's words (C7): "the longest alphanumeric run in the
URL when that run has length ≥ 12; else the last path segment of length ≥ 6
enclosed in slashes; else the `.m3u8` filename stem when of length ≥ 6; else
a hash of the full URL string". Compared against `extract_url_key`, which is
translated from the source. -/
def spec_url_key (md5 : String → String) (url : String) : String :=
  let s := url.data
  let m1 : Option (List Char) :=
    match firstLongest (alnumRuns s) with
    | some t => if 12 ≤ t.length then some t else none
    | none => none
  match m1 with
  | some t => String.mk t
  | none =>
    match (specSegAux (s.length + 1) s).getLast? with
    | some seg => String.mk seg
    | none =>
      match searchM3u8Stem (s.length + 1) s with
      | some stem => if 6 ≤ stem.length then String.mk stem else (md5 url).take 16
      | none => (md5 url).take 16

/-!
Theorems settling the claims.
-/

/-- Helper: one step of the `_deduplicate_urls` loop either rejects the URL
(leaving `unique_urls` and both within-call sets unchanged — only the
pipeline-state component may change) or admits it, appending the trimmed URL
to `unique_urls` and `seen_urls` and its key to `seen_url_keys`. -/
theorem dedup_step_shape (md5 : String → String) (fsx : String → Bool) (now : Nat)
    (acc : DedupState) (u : String) :
    ((dedup_step md5 fsx now acc u).unique_urls = acc.unique_urls
      ∧ (dedup_step md5 fsx now acc u).seen_urls = acc.seen_urls
      ∧ (dedup_step md5 fsx now acc u).seen_url_keys = acc.seen_url_keys)
    ∨ ((dedup_step md5 fsx now acc u).unique_urls = acc.unique_urls ++ [(strip u)]
      ∧ (dedup_step md5 fsx now acc u).seen_urls = acc.seen_urls ++ [(strip u)]
      ∧ (dedup_step md5 fsx now acc u).seen_url_keys
          = acc.seen_url_keys ++ [extract_url_key md5 (strip u)]) := by
  simp only [dedup_step]
  split_ifs <;> simp

/-- C1 (counterexample): the claim puts the seen-this-run tier first and the
title-exclusion tier third, so a submission whose URL is already in the
seen-this-run set *and* whose title is excluded would be rejected at the
seen-this-run tier. In the source, `process_item` checks the exclusion list
before any URL tier: at a state whose seen-this-run set holds `"u"` and whose
exclusion list holds `"T"`, submitting `("T", "u")` is rejected at the title
tier, not the seen-this-run tier. -/
theorem c1_admission_order_cex :
    admission_reason (fun s => s) (fun _ => false) 0
        ⟨[], ["u"], [], [], ["T"], ⟨[], 1⟩⟩ "T" "u" = some .titleExcluded
    ∧ admission_reason (fun s => s) (fun _ => false) 0
        ⟨[], ["u"], [], [], ["T"], ⟨[], 1⟩⟩ "T" "u" ≠ some .seenThisRun := by
  exact ⟨rfl, by decide⟩

/-- C1 (amended): the admission checks run in the fixed source order, first
match rejecting: the title-exclusion list is consulted first, for the whole
submission; then each URL passes through `_deduplicate_urls`, whose tiers
are, in order: exact duplicate within this submission, fuzzy URL-key
collision within this submission, the process-local seen-this-run set, the
similar-URL check against processed URLs, the completed-in-Ledger lookup,
and the in-flight set. In particular a submission whose URL is in the
seen-this-run set and whose title is excluded rejects at the title tier. -/
theorem c1_admission_order (md5 : String → String) (fsx : String → Bool) (now : Nat)
    (st : PipelineState) (title url : String) :
    (is_title_excluded st title = true →
      admission_reason md5 fsx now st title url = some .titleExcluded)
    ∧ (is_title_excluded st title = false →
      admission_reason md5 fsx now st title url = dedup_check md5 fsx now st [] [] url)
    ∧ ∀ seenU seenK : List String,
      (seenU.contains (strip url) = true →
        dedup_check md5 fsx now st seenU seenK url = some .exactDup)
      ∧ (seenU.contains (strip url) = false →
         seenK.contains (extract_url_key md5 (strip url)) = true →
        dedup_check md5 fsx now st seenU seenK url = some .fuzzyKeyDup)
      ∧ (seenU.contains (strip url) = false →
         seenK.contains (extract_url_key md5 (strip url)) = false →
         st.processed_urls.contains (strip url) = true →
        dedup_check md5 fsx now st seenU seenK url = some .seenThisRun)
      ∧ (seenU.contains (strip url) = false →
         seenK.contains (extract_url_key md5 (strip url)) = false →
         st.processed_urls.contains (strip url) = false →
         is_similar_url md5 st (strip url) = true →
        dedup_check md5 fsx now st seenU seenK url = some .similarUrl)
      ∧ (seenU.contains (strip url) = false →
         seenK.contains (extract_url_key md5 (strip url)) = false →
         st.processed_urls.contains (strip url) = false →
         is_similar_url md5 st (strip url) = false →
         (is_downloaded md5 fsx now st.db (strip url)).1 = true →
        dedup_check md5 fsx now st seenU seenK url = some .ledgerCompleted)
      ∧ (seenU.contains (strip url) = false →
         seenK.contains (extract_url_key md5 (strip url)) = false →
         st.processed_urls.contains (strip url) = false →
         is_similar_url md5 st (strip url) = false →
         (is_downloaded md5 fsx now st.db (strip url)).1 = false →
         st.downloading_urls.contains (strip url) = true →
        dedup_check md5 fsx now st seenU seenK url = some .inFlight)
      ∧ (seenU.contains (strip url) = false →
         seenK.contains (extract_url_key md5 (strip url)) = false →
         st.processed_urls.contains (strip url) = false →
         is_similar_url md5 st (strip url) = false →
         (is_downloaded md5 fsx now st.db (strip url)).1 = false →
         st.downloading_urls.contains (strip url) = false →
        dedup_check md5 fsx now st seenU seenK url = none) := by
  refine ⟨?_, ?_, ?_⟩
  · intro h
    unfold admission_reason
    rw [if_pos h]
  · intro h
    unfold admission_reason
    rw [if_neg (by simp [h])]
  · intro seenU seenK
    refine ⟨?_, ?_, ?_, ?_, ?_, ?_, ?_⟩ <;>
      (intros; unfold dedup_check; simp_all)

/-- C1 (witness): the amended tier order evaluated at concrete inputs — the
title tier fires for an excluded title, and the seen-this-run tier fires for
a URL already processed this run when no earlier tier matches. -/
theorem c1_admission_order_witness :
    admission_reason (fun s => s) (fun _ => false) 0
        ⟨[], [], [], [], ["T"], ⟨[], 1⟩⟩ "T" "x" = some .titleExcluded
    ∧ dedup_check (fun s => s) (fun _ => false) 0
        ⟨[], ["u"], [], [], [], ⟨[], 1⟩⟩ [] [] "u" = some .seenThisRun :=
  ⟨(c1_admission_order (fun s => s) (fun _ => false) 0
      ⟨[], [], [], [], ["T"], ⟨[], 1⟩⟩ "T" "x").1 rfl,
   ((c1_admission_order (fun s => s) (fun _ => false) 0
      ⟨[], ["u"], [], [], [], ⟨[], 1⟩⟩ "T" "u").2.2 [] []).2.2.1 (by decide)
     (by decide) (by decide)⟩

/-- C2: for a URL with a `'completed'` Ledger record whose recorded final
path exists on disk, a fresh-run resubmission is rejected at the
completed-in-store tier: the admission check's Ledger lookup returns
`(True, finalPath)` to its caller and leaves the Ledger unchanged, the URL
is not admitted (so the fetch executor is never invoked for it), and the
whole check is ordinary control flow over total functions. -/
theorem c2_cross_run_resume (md5 : String → String) (fsx : String → Bool) (now : Nat)
    (st : PipelineState) (url title p : String) (r : JobRecord)
    (hfind : st.db.rows.find?
      (fun rr => rr.url_hash == md5 (strip url) && rr.status == "completed") = some r)
    (hfp : r.file_path = some p) (hx : fsx p = true)
    (hproc : st.processed_urls = [])
    (htitle : is_title_excluded st title = false) :
    is_download_completed md5 fsx now false false st.db (strip url)
        = ((true, some p), st.db)
    ∧ admission_reason md5 fsx now st title url = some .ledgerCompleted
    ∧ (process_item_admitted md5 fsx now st title [url]).1 = []
    ∧ (process_item_admitted md5 fsx now st title [url]).2.db = st.db := by
  have hidc : is_download_completed md5 fsx now false false st.db (strip url)
      = ((true, some p), st.db) := by
    unfold is_download_completed get_url_hash
    simp [hfind, hfp, hx]
  have hisd : is_downloaded md5 fsx now st.db (strip url) = (true, st.db) := by
    unfold is_downloaded
    rw [hidc]
  have hsim : is_similar_url md5 st (strip url) = false := by
    unfold is_similar_url
    rw [hproc]
    rfl
  refine ⟨hidc, ?_, ?_⟩
  · unfold admission_reason dedup_check
    rw [if_neg (by simp [htitle])]
    simp [hproc, hisd, hsim]
  · unfold process_item_admitted
    rw [if_neg (by simp [htitle])]
    unfold deduplicate_urls
    simp only [List.foldl]
    by_cases hu : (url == "") = true
    · constructor
      · simp [dedup_step, hu]
      · simp [dedup_step, hu]
    · constructor
      · simp [dedup_step, hu, hproc, hsim, hisd]
      · simp [dedup_step, hu, hproc, hsim, hisd]

/-- C2 (witness): a Ledger holding a completed record for `"u"` with final
path `"/f"` present on disk; resubmitting `"u"` in a fresh run rejects at the
completed-in-store tier and admits nothing. -/
theorem c2_cross_run_resume_witness :
    admission_reason (fun s => s) (fun p => p == "/f") 9
        ⟨[], [], [], [], [],
         ⟨[⟨1, "u", "u", "T", "s", some "/f", some "/t", "completed",
            some 3, some 5, 0, 0⟩], 2⟩⟩ "T2" "u" = some .ledgerCompleted
    ∧ (process_item_admitted (fun s => s) (fun p => p == "/f") 9
        ⟨[], [], [], [], [],
         ⟨[⟨1, "u", "u", "T", "s", some "/f", some "/t", "completed",
            some 3, some 5, 0, 0⟩], 2⟩⟩ "T2" ["u"]).1 = [] :=
  ⟨(c2_cross_run_resume (fun s => s) (fun p => p == "/f") 9
      ⟨[], [], [], [], [],
       ⟨[⟨1, "u", "u", "T", "s", some "/f", some "/t", "completed",
          some 3, some 5, 0, 0⟩], 2⟩⟩ "u" "T2" "/f"
      ⟨1, "u", "u", "T", "s", some "/f", some "/t", "completed",
        some 3, some 5, 0, 0⟩
      (by decide) (by decide) (by decide) (by decide) (by decide)).2.1,
   (c2_cross_run_resume (fun s => s) (fun p => p == "/f") 9
      ⟨[], [], [], [], [],
       ⟨[⟨1, "u", "u", "T", "s", some "/f", some "/t", "completed",
          some 3, some 5, 0, 0⟩], 2⟩⟩ "u" "T2" "/f"
      ⟨1, "u", "u", "T", "s", some "/f", some "/t", "completed",
        some 3, some 5, 0, 0⟩
      (by decide) (by decide) (by decide) (by decide) (by decide)).2.2.1⟩

/-- C3 (counterexample): the claim says a fetch timeout records status
`'error'`. In the source, `subprocess.TimeoutExpired` is caught inside
`download_m3u8_with_resume`, which returns `False`, so
`_download_video_async` records `'failed'` — at a concrete job whose fetch
times out, the Ledger row ends as `'failed'`, not `'error'`. -/
theorem c3_timeout_status_cex :
    (download_video_async (fun s => s) (fun _ => none) 9 .timedOut false
        ⟨[⟨1, "u", "u", "T", "s", none, some "/t", "downloading",
           none, none, 0, 0⟩], 2⟩ [] "u" "T" "/t" "/f").recordedStatus = "failed"
    ∧ (download_video_async (fun s => s) (fun _ => none) 9 .timedOut false
        ⟨[⟨1, "u", "u", "T", "s", none, some "/t", "downloading",
           none, none, 0, 0⟩], 2⟩ [] "u" "T" "/t" "/f").db.rows.map
        (fun r => r.status) = ["failed"]
    ∧ ("failed" : String) ≠ "error" := by
  exact ⟨rfl, rfl, by decide⟩

/-- C3 (amended): a fetch timeout is recorded as `'failed'`, the same status
as an ordinary failure (non-zero exit code, empty output, or an exception
inside the fetch wrapper); status `'error'` is recorded only when an
exception escapes into the worker body itself. In every non-success case the
temporary file is left in place and the exclusion structures are not
modified. -/
theorem c3_timeout_status (md5 : String → String) (fsz : String → Option Nat)
    (now : Nat) (db : Ledger) (excl : List String) (url title temp final : String) :
    ((download_video_async md5 fsz now .timedOut false db excl url title temp final).recordedStatus = "failed"
      ∧ (download_video_async md5 fsz now .timedOut false db excl url title temp final).movedTemp = false
      ∧ (download_video_async md5 fsz now .timedOut false db excl url title temp final).excluded_titles = excl
      ∧ (download_video_async md5 fsz now .timedOut false db excl url title temp final).db
          = (update_download_status md5 now false db url "failed" none none).2)
    ∧ (∀ c : Nat,
        (download_video_async md5 fsz now (.exited (c + 1)) false db excl url title temp final).recordedStatus
          = "failed")
    ∧ (download_video_async md5 fsz now .raised false db excl url title temp final).recordedStatus = "failed"
    ∧ (∀ outcome : FetchOutcome,
        (download_video_async md5 fsz now outcome true db excl url title temp final).recordedStatus = "error"
        ∧ (download_video_async md5 fsz now outcome true db excl url title temp final).movedTemp = false
        ∧ (download_video_async md5 fsz now outcome true db excl url title temp final).excluded_titles = excl) := by
  exact ⟨⟨rfl, rfl, rfl, rfl⟩, fun c => rfl, rfl, fun o => ⟨rfl, rfl, rfl⟩⟩

/-- C4 (counterexample): the claim says the upsert operation does not revive
a `'completed'` record. `add_download_record` uses `INSERT OR REPLACE`: on a
Ledger whose only row is a completed record for `"u"` (final path `"/f"`,
size 5, download time 3), re-adding `"u"` leaves a single `'downloading'`
row with null `file_path`, `file_size` and `download_time`. -/
theorem c4_upsert_revives_cex :
    ((add_download_record (fun s => s) 7 false
        ⟨[⟨1, "u", "u", "T", "s", some "/f", some "/t", "completed",
           some 3, some 5, 0, 0⟩], 2⟩ "u" "T2" "s2" "/t2").2.rows.map
      (fun r => (r.url_hash, r.status, r.file_path, r.file_size, r.download_time)))
      = [("u", "downloading", none, none, none)]
    ∧ ("downloading" : String) ≠ "completed" := by
  exact ⟨rfl, by decide⟩

/-- C4 (amended): `add_download_record` has `INSERT OR REPLACE` semantics:
after the call, every row keyed by the URL's hash is the fresh
`'downloading'` row — null final path, size and download time, and both
timestamps reset to the call time — regardless of any previous `'completed'`
record; rows with other keys are preserved; the new row id is returned. The
forward-only status discipline is maintained by the pipeline's admission
checks, not by the Ledger operation itself. -/
theorem c4_upsert_replace (md5 : String → String) (now : Nat) (db : Ledger)
    (url title site temp : String) :
    (∀ r2 ∈ (add_download_record md5 now false db url title site temp).2.rows,
       r2.url_hash = md5 url →
         r2.status = "downloading" ∧ r2.file_path = none ∧ r2.file_size = none
         ∧ r2.download_time = none ∧ r2.created_at = now ∧ r2.updated_at = now
         ∧ r2.url = url ∧ r2.title = title ∧ r2.site = site
         ∧ r2.temp_file_path = some temp)
    ∧ (∀ r ∈ db.rows, r.url_hash ≠ md5 url →
        r ∈ (add_download_record md5 now false db url title site temp).2.rows)
    ∧ (add_download_record md5 now false db url title site temp).1 = some db.nextId := by
  refine ⟨?_, ?_, rfl⟩
  · intro r2 hmem hh
    unfold add_download_record get_url_hash at hmem
    simp only [if_neg Bool.false_ne_true, List.mem_append, List.mem_filter,
      List.mem_singleton] at hmem
    rcases hmem with ⟨hr, hne⟩ | rfl
    · exact absurd (beq_iff_eq.2 hh) (by simpa using hne)
    · exact ⟨rfl, rfl, rfl, rfl, rfl, rfl, rfl, rfl, rfl, rfl⟩
  · intro r hr hne
    unfold add_download_record get_url_hash
    simp only [if_neg Bool.false_ne_true, List.mem_append, List.mem_filter]
    exact Or.inl ⟨hr, by simpa using hne⟩

/-- C4 (witness): re-adding `"u"` over its completed record yields the row
`(id 2, status downloading, null path/size/time, timestamps 7)`. -/
theorem c4_upsert_replace_witness :
    (⟨2, "u", "u", "T2", "s2", none, some "/t2", "downloading",
       none, none, 7, 7⟩ : JobRecord).status = "downloading"
    ∧ (⟨2, "u", "u", "T2", "s2", none, some "/t2", "downloading",
       none, none, 7, 7⟩ : JobRecord).file_path = none
    ∧ (⟨2, "u", "u", "T2", "s2", none, some "/t2", "downloading",
       none, none, 7, 7⟩ : JobRecord).file_size = none
    ∧ (⟨2, "u", "u", "T2", "s2", none, some "/t2", "downloading",
       none, none, 7, 7⟩ : JobRecord).download_time = none
    ∧ (⟨2, "u", "u", "T2", "s2", none, some "/t2", "downloading",
       none, none, 7, 7⟩ : JobRecord).created_at = 7
    ∧ (⟨2, "u", "u", "T2", "s2", none, some "/t2", "downloading",
       none, none, 7, 7⟩ : JobRecord).updated_at = 7
    ∧ (⟨2, "u", "u", "T2", "s2", none, some "/t2", "downloading",
       none, none, 7, 7⟩ : JobRecord).url = "u"
    ∧ (⟨2, "u", "u", "T2", "s2", none, some "/t2", "downloading",
       none, none, 7, 7⟩ : JobRecord).title = "T2"
    ∧ (⟨2, "u", "u", "T2", "s2", none, some "/t2", "downloading",
       none, none, 7, 7⟩ : JobRecord).site = "s2"
    ∧ (⟨2, "u", "u", "T2", "s2", none, some "/t2", "downloading",
       none, none, 7, 7⟩ : JobRecord).temp_file_path = some "/t2" :=
  (c4_upsert_replace (fun s => s) 7
      ⟨[⟨1, "u", "u", "T", "s", some "/f", some "/t", "completed",
         some 3, some 5, 0, 0⟩], 2⟩ "u" "T2" "s2" "/t2").1
    ⟨2, "u", "u", "T2", "s2", none, some "/t2", "downloading", none, none, 7, 7⟩
    (by decide) (by decide)

/-- C5: `is_download_completed` with a `'completed'` record whose non-null
path exists returns `(True, path)` and changes nothing; with a `'completed'`
record whose path is null or whose file vanished it returns `(False, None)`
after demoting the record to `'missing_file'` (refreshing `updated_at`);
with no `'completed'` record it returns `(False, None)` and changes
nothing. -/
theorem c5_lookup_self_heal (md5 : String → String) (fsx : String → Bool) (now : Nat)
    (db : Ledger) (url : String) :
    (db.rows.find? (fun r => r.url_hash == md5 url && r.status == "completed") = none →
      is_download_completed md5 fsx now false false db url = ((false, none), db))
    ∧ (∀ r p, db.rows.find? (fun r => r.url_hash == md5 url && r.status == "completed") = some r →
        r.file_path = some p → fsx p = true →
        is_download_completed md5 fsx now false false db url = ((true, some p), db))
    ∧ (∀ r, db.rows.find? (fun r => r.url_hash == md5 url && r.status == "completed") = some r →
        (r.file_path = none ∨ ∃ p, r.file_path = some p ∧ fsx p = false) →
        (is_download_completed md5 fsx now false false db url).1 = (false, none)
        ∧ (is_download_completed md5 fsx now false false db url).2
            = (update_download_status md5 now false db url "missing_file" none none).2
        ∧ ∀ r2 ∈ (is_download_completed md5 fsx now false false db url).2.rows,
            r2.url_hash = md5 url → r2.status = "missing_file" ∧ r2.updated_at = now) := by
  refine ⟨?_, ?_, ?_⟩
  · intro h
    unfold is_download_completed get_url_hash
    simp [h]
  · intro r p hf hp hx
    unfold is_download_completed get_url_hash
    simp [hf, hp, hx]
  · intro r hf hcase
    have hres : (is_download_completed md5 fsx now false false db url).1 = (false, none)
        ∧ (is_download_completed md5 fsx now false false db url).2
          = (update_download_status md5 now false db url "missing_file" none none).2 := by
      unfold is_download_completed get_url_hash
      rcases hcase with hnone | ⟨p, hp, hx⟩
      · simp [hf, hnone]
      · simp [hf, hp, hx]
    refine ⟨hres.1, hres.2, ?_⟩
    intro r2 hmem hhash
    rw [hres.2] at hmem
    unfold update_download_status get_url_hash at hmem
    simp only [if_neg Bool.false_ne_true, List.mem_map] at hmem
    obtain ⟨r0, hr0, hr0eq⟩ := hmem
    by_cases hh : (r0.url_hash == md5 url) = true
    · rw [if_pos hh] at hr0eq
      subst hr0eq
      exact ⟨rfl, rfl⟩
    · rw [if_neg hh] at hr0eq
      subst hr0eq
      exact absurd (beq_iff_eq.2 hhash) hh

/-- C5 (witness): a completed record for `"u"` with path `"/f"`: when the
file exists the lookup returns `(True, "/f")` unchanged; when the file does
not exist it returns `(False, None)`. -/
theorem c5_lookup_self_heal_witness :
    is_download_completed (fun s => s) (fun p => p == "/f") 9 false false
        ⟨[⟨1, "u", "u", "T", "s", some "/f", some "/t", "completed",
           some 3, some 5, 0, 0⟩], 2⟩ "u"
      = ((true, some "/f"),
         ⟨[⟨1, "u", "u", "T", "s", some "/f", some "/t", "completed",
            some 3, some 5, 0, 0⟩], 2⟩)
    ∧ (is_download_completed (fun s => s) (fun _ => false) 9 false false
        ⟨[⟨1, "u", "u", "T", "s", some "/f", some "/t", "completed",
           some 3, some 5, 0, 0⟩], 2⟩ "u").1 = (false, none) :=
  ⟨(c5_lookup_self_heal (fun s => s) (fun p => p == "/f") 9
      ⟨[⟨1, "u", "u", "T", "s", some "/f", some "/t", "completed",
         some 3, some 5, 0, 0⟩], 2⟩ "u").2.1
      ⟨1, "u", "u", "T", "s", some "/f", some "/t", "completed",
        some 3, some 5, 0, 0⟩ "/f" (by decide) (by decide) (by decide),
   ((c5_lookup_self_heal (fun s => s) (fun _ => false) 9
      ⟨[⟨1, "u", "u", "T", "s", some "/f", some "/t", "completed",
         some 3, some 5, 0, 0⟩], 2⟩ "u").2.2
      ⟨1, "u", "u", "T", "s", some "/f", some "/t", "completed",
        some 3, some 5, 0, 0⟩ (by decide)
      (Or.inr ⟨"/f", by decide, by decide⟩)).1⟩

/-- C6: every Ledger operation catches storage-layer faults at its boundary
and returns its conservative default — `(False, None)`, `None`, `None`,
`False`, the empty dictionary, `[]`, `[]`, `0`, `0` respectively — with the
store unchanged (rollback), instead of propagating the exception. -/
theorem c6_ledger_fault_defaults : ∀ (md5 : String → String) (fsx : String → Bool)
    (now : Nat) (b : Bool) (db : Ledger)
    (url title site temp status stStatus : String)
    (fp : Option String) (fsize : Option Nat) (limit : Option Nat) (offset : Nat),
    is_download_completed md5 fsx now true b db url = ((false, none), db)
    ∧ get_temp_file_path md5 true db url = none
    ∧ add_download_record md5 now true db url title site temp = (none, db)
    ∧ update_download_status md5 now true db url status fp fsize = (false, db)
    ∧ get_download_statistics true db = []
    ∧ get_all_downloads true db limit offset = []
    ∧ get_downloads_by_status true db stStatus = []
    ∧ cleanup_missing_files fsx now true db = (0, db)
    ∧ reset_all_records true db = (0, db) := by
  intros
  exact ⟨rfl, rfl, rfl, rfl, rfl, rfl, rfl, rfl, rfl⟩

/-- C8: `download_m3u8_with_resume` reports success if and only if the
external process exits with code 0 and the destination file exists with size
strictly greater than 0; every other outcome — non-zero exit code, missing
or empty output file, timeout, or an exception during the invocation — is
reported as failure. -/
theorem c8_fetch_success_iff (fsz : String → Option Nat) (outcome : FetchOutcome)
    (temp : String) :
    download_m3u8_with_resume fsz outcome temp = true ↔
      (outcome = .exited 0 ∧ ∃ n, fsz temp = some n ∧ 0 < n) := by
  cases outcome with
  | exited c =>
    cases c with
    | zero =>
      cases hfs : fsz temp with
      | none => simp [download_m3u8_with_resume, hfs]
      | some n => simp [download_m3u8_with_resume, hfs]
    | succ c => simp [download_m3u8_with_resume]
  | timedOut => simp [download_m3u8_with_resume]
  | raised => simp [download_m3u8_with_resume]

/-- C7 (counterexample): the claim describes the second tier as "the last
path segment of length ≥ 6 enclosed in slashes". The source's
`re.findall(r'/([a-zA-Z0-9]{6,})/', url)` is a non-overlapping scan whose
matches consume their closing slash: on
`"http://x/abcdef12/ghijkl34/"` (whose longest alphanumeric run has length
8 < 12) the last slash-enclosed segment of length ≥ 6 is `"ghijkl34"`
(computed by `spec_url_key`, written from the spec's words), but the source
returns `"abcdef12"` — the slash between the two segments was consumed by
the first match. -/
theorem c7_url_key_cex :
    extract_url_key (fun s => s) "http://x/abcdef12/ghijkl34/" = "abcdef12"
    ∧ spec_url_key (fun s => s) "http://x/abcdef12/ghijkl34/" = "ghijkl34"
    ∧ ("abcdef12" : String) ≠ "ghijkl34" := by
  refine ⟨by decide, by decide, by decide⟩

/-- C7 (amended): the structural key is the longest alphanumeric run (first
among equals) when that run has length ≥ 12; else the last match of the
non-overlapping left-to-right scan for slash-delimited alphanumeric segments
of length ≥ 6 (each match consumes its closing slash, so of two adjacent
qualifying segments only the first is seen); else the `.m3u8` filename stem
when of length ≥ 6; else the first 16 hex digits of the URL's MD5.
Consequently, two URLs in one submission sharing the same structural key —
in particular the same longest ≥ 12-character alphanumeric token — are
treated as duplicates: if the first is admitted, the second is dropped. -/
theorem c7_url_key (md5 : String → String) (fsx : String → Bool) (now : Nat)
    (st : PipelineState) (url u1 u2 : String) (t : List Char) :
    (firstLongest ((alnumRuns url.data).filter (fun r => 8 ≤ r.length)) = some t →
      12 ≤ t.length → extract_url_key md5 url = String.mk t)
    ∧ (extract_url_key md5 (strip u1) = extract_url_key md5 (strip u2) →
       (deduplicate_urls md5 fsx now st [u1]).1 = [(strip u1)] →
       (deduplicate_urls md5 fsx now st [u1, u2]).1 = [(strip u1)]) := by
  constructor
  · intro h1 h2
    simp only [extract_url_key]
    rw [h1]
    simp [h2]
  · intro hkey h1
    unfold deduplicate_urls at h1 ⊢
    simp only [List.foldl] at h1 ⊢
    set s1 := dedup_step md5 fsx now ⟨[], [], [], st⟩ u1 with hs1
    rcases dedup_step_shape md5 fsx now ⟨[], [], [], st⟩ u1 with
      ⟨ha, hb, hc⟩ | ⟨ha, hb, hc⟩
    · rw [← hs1] at ha
      rw [ha] at h1
      exact absurd h1 (by simp)
    · rw [← hs1] at ha hb hc
      simp only [List.nil_append] at ha hb hc
      simp only [dedup_step, hb, hc]
      by_cases h0 : (u2 == "") = true
      · simp [h0, ha]
      · by_cases hseen : (strip u2) = (strip u1)
        · simp [h0, hseen, ha]
        · simp [h0, hseen, hkey, ha]

/-- C7 (witness): two different URLs sharing the 14-character token
`abc123456789XY`: the key of each is that token, and submitting both in one
item admits only the first. -/
theorem c7_url_key_witness :
    extract_url_key (fun _ => "") "https://x/abc123456789XY/a.m3u8" = "abc123456789XY"
    ∧ (deduplicate_urls (fun _ => "") (fun _ => false) 0
        ⟨[], [], [], [], [], ⟨[], 1⟩⟩
        ["https://x/abc123456789XY/a.m3u8", "https://y/abc123456789XY/b.m3u8"]).1
      = ["https://x/abc123456789XY/a.m3u8"] :=
  ⟨(c7_url_key (fun _ => "") (fun _ => false) 0 ⟨[], [], [], [], [], ⟨[], 1⟩⟩
      "https://x/abc123456789XY/a.m3u8" "x" "y" "abc123456789XY".data).1
      (by decide) (by decide),
   (c7_url_key (fun _ => "") (fun _ => false) 0 ⟨[], [], [], [], [], ⟨[], 1⟩⟩
      "x" "https://x/abc123456789XY/a.m3u8" "https://y/abc123456789XY/b.m3u8"
      []).2 (by decide) (by decide)⟩

/-- C10: a successful `update_download_status` call changes only `status`,
`updated_at` and, conditionally, `file_path`, `file_size`, `download_time`
of the matching row: `url_hash`, `url`, `title`, `site`, `temp_file_path`
and `created_at` are never modified, non-matching rows are untouched,
`file_path` is written only for a truthy argument, `file_size` only for a
non-`None` argument, `download_time` only when the new status is
`'completed'`, and `updated_at` is refreshed whenever a row matches; the
returned flag reports whether any row matched. -/
theorem c10_update_status_frame (md5 : String → String) (now : Nat) (db : Ledger)
    (url status : String) (fp : Option String) (fsize : Option Nat)
    (i : Nat) (hi : i < db.rows.length) :
    (update_download_status md5 now false db url status fp fsize).1
        = db.rows.any (fun r => r.url_hash == md5 url)
    ∧ (update_download_status md5 now false db url status fp fsize).2.rows.length
        = db.rows.length
    ∧ (update_download_status md5 now false db url status fp fsize).2.nextId = db.nextId
    ∧ ((db.rows.get ⟨i, hi⟩).url_hash ≠ md5 url →
        (update_download_status md5 now false db url status fp fsize).2.rows[i]?
          = some (db.rows.get ⟨i, hi⟩))
    ∧ ((db.rows.get ⟨i, hi⟩).url_hash = md5 url →
        (update_download_status md5 now false db url status fp fsize).2.rows[i]?
          = some { db.rows.get ⟨i, hi⟩ with
              status := status
              updated_at := now
              file_path := if fpTruthy fp then fp
                else (db.rows.get ⟨i, hi⟩).file_path
              file_size := match fsize with
                | some n => some n
                | none => (db.rows.get ⟨i, hi⟩).file_size
              download_time := if status == "completed" then some now
                else (db.rows.get ⟨i, hi⟩).download_time }) := by
  unfold update_download_status get_url_hash
  refine ⟨rfl, by simp, rfl, ?_, ?_⟩
  · intro h
    simp only [List.get_eq_getElem] at h
    simp [List.getElem?_map, List.getElem?_eq_getElem hi, List.get_eq_getElem,
      beq_iff_eq, h]
  · intro h
    simp only [List.get_eq_getElem] at h
    simp [List.getElem?_map, List.getElem?_eq_getElem hi, List.get_eq_getElem,
      beq_iff_eq, h]

/-- C10 (witness): completing the `'downloading'` row for `"u"` with path
`"/f"` and size 9 at time 5 rewrites exactly the claimed columns. -/
theorem c10_update_status_frame_witness :
    (update_download_status (fun s => s) 5 false
        ⟨[⟨1, "u", "u", "T", "s", none, some "/t", "downloading",
           none, none, 0, 0⟩], 2⟩ "u" "completed" (some "/f") (some 9)).2.rows[0]?
      = some ⟨1, "u", "u", "T", "s", some "/f", some "/t", "completed",
          some 5, some 9, 0, 5⟩ :=
  (c10_update_status_frame (fun s => s) 5
      ⟨[⟨1, "u", "u", "T", "s", none, some "/t", "downloading",
         none, none, 0, 0⟩], 2⟩ "u" "completed" (some "/f") (some 9) 0
      (by decide)).2.2.2.2 (by decide)
